import Mathlib

/-! Verification of the MKV batch-processing scripts `AudioSubManager.py` and
`anime_mkvtool_vostfr.py`: a shallow embedding of the processing-state store,
the resource sizers, the tiered track matcher `find_matching_subtitle`, the
mkvmerge command construction, the metadata query `get_mkv_tracks` and the
size formatter `format_size`, followed by theorems about these definitions.

Conventions of the embedding:
* Python strings are Lean `String`; `str.lower()` maps `Char.toLower` over
  the characters, `str.split()` splits on whitespace dropping empty tokens,
  and `a in b` for strings is contiguous containment on the character lists.
* Python dicts keyed by strings are association lists `List (String × α)`
  with insertion-order semantics: writing to an existing key replaces the
  value in place, a new key is appended at the end.  This models both the
  `subtitle_dict` comprehension of `find_matching_subtitle` and the
  `failed_files` mapping of `ProcessingState`.
* Python float arithmetic is modelled over `ℚ` and `int(x)` as truncation
  toward zero; a division with zero denominator is a `ZeroDivisionError`,
  modelled with `Except Unit`.
* Invocations of external processes are modelled by passing the observed
  outcome, a `RunResult` with exit code / stdout / stderr, as data.
-/

deriving instance DecidableEq for Except

/-- One track record as the scripts read it from the mkvmerge `-J` JSON
document: `id`, `type`, `properties.language`, `properties.track_name` and
`codec`; a property absent from the JSON is `none`. -/
structure Track where
  id : Nat
  track_type : String
  language : Option String
  track_name : Option String
  codec : Option String
deriving DecidableEq

/-- Python `str.lower()`, mapped over the characters of the string. -/
def pyLower (s : String) : String := String.mk (s.data.map Char.toLower)

/-- The lowered display name of a track, as computed throughout
`find_matching_subtitle`: `track.get('properties').get('track_name', '')`
followed by `.lower()`; a missing name defaults to the empty string. -/
def trackNameLower (t : Track) : String := pyLower (t.track_name.getD "")

/-- Helper for `splitWords`: accumulate the current word in reverse. -/
def splitWordsAux : List Char → List Char → List (List Char)
  | acc, [] => if acc = [] then [] else [acc.reverse]
  | acc, c :: cs =>
    if c.isWhitespace then
      if acc = [] then splitWordsAux [] cs else acc.reverse :: splitWordsAux [] cs
    else splitWordsAux (c :: acc) cs

/-- Python `str.split()` with no argument: break at whitespace runs and
drop empty pieces. -/
def splitWords (s : List Char) : List (List Char) := splitWordsAux [] s

/-- Python `set(str.split())`: the distinct words of a name. -/
def wordSet (s : List Char) : List (List Char) := (splitWords s).dedup

/-- A similarity value: the exact quotient `num / den` of the Python float
division, kept as an unreduced pair of naturals (the denominator is
positive whenever the division did not raise). -/
def fracLt (a b : Nat × Nat) : Bool := decide (a.1 * b.2 < b.1 * a.2)

/-- Python division `a / b` of two nonnegative integers, which raises
`ZeroDivisionError` when the denominator is zero; the exact quotient is
kept as a numerator/denominator pair. -/
def pyDiv (a b : Nat) : Except Unit (Nat × Nat) :=
  if b = 0 then .error () else .ok (a, b)

/-- The body of the similarity loop of `find_matching_subtitle`: word sets
of the two lowered names, their common words, and
`len(common_words) / max(len(selected_words), len(current_words))`.
The source has no guard, so two empty word sets raise. -/
def wordSimilarity (selectedName currentName : String) :
    Except Unit (Nat × Nat) :=
  let sw := wordSet selectedName.data
  let cw := wordSet currentName.data
  let common := sw.filter (fun w => cw.contains w)
  pyDiv common.length (max sw.length cw.length)

/-- Tier 3 of `find_matching_subtitle`: fold over the candidates keeping
`best_match` and `highest_similarity` (initially `None` and `0`), updating
on strictly greater similarity. -/
def similarityLoop (frenchSubtitles : List Track) (selectedName : String) :
    Except Unit (Option Track × (Nat × Nat)) :=
  frenchSubtitles.foldlM
    (fun acc sub => do
      let sim ← wordSimilarity selectedName (trackNameLower sub)
      if fracLt acc.2 sim then pure (some sub, sim) else pure acc)
    (none, (0, 1))

/-- Writing `d[k] = v` into a Python dict: an existing key keeps its
position and gets the new value, a new key is appended at the end. -/
def dictInsert {α : Type} (d : List (String × α)) (k : String) (v : α) :
    List (String × α) :=
  if d.any (fun p => decide (p.1 = k)) then
    d.map (fun p => if p.1 = k then (k, v) else p)
  else d ++ [(k, v)]

/-- Python dict lookup `d[k]` / `k in d`. -/
def dictGet {α : Type} (d : List (String × α)) (k : String) : Option α :=
  (d.find? (fun p => decide (p.1 = k))).map Prod.snd

/-- The keys of a modelled Python dict, in insertion order. -/
def dictKeys {α : Type} (d : List (String × α)) : List String := d.map Prod.fst

/-- Python `del d[k]` (guarded by `k in d` in the source, which makes the
unconditional filter equivalent). -/
def dictErase {α : Type} (d : List (String × α)) (k : String) :
    List (String × α) :=
  d.filter (fun p => decide (p.1 ≠ k))

/-- The `subtitle_dict` comprehension of `find_matching_subtitle`: a dict
from lowered display name to track, built over the candidates in catalog
order (so a duplicated name keeps its first position but the last track). -/
def buildSubtitleDict (frenchSubtitles : List Track) : List (String × Track) :=
  frenchSubtitles.foldl (fun d s => dictInsert d (trackNameLower s) s) []

/-- Tier 1 of `find_matching_subtitle`: if the selected lowered name is a
key of the dict and the found track has the same `codec`, return it;
otherwise fall through. -/
def exactMatchTier (dict : List (String × Track)) (selectedName : String)
    (selectedCodec : Option String) : Option Track :=
  match dictGet dict selectedName with
  | some m => if m.codec = selectedCodec then some m else none
  | none => none

/-- `needle.isPrefixOf hay` on character lists confirmed elementwise. -/
def isPrefixList : List Char → List Char → Bool
  | [], _ => true
  | _ :: _, [] => false
  | a :: as, b :: bs => decide (a = b) && isPrefixList as bs

/-- Python substring containment `needle in hay` on character lists. -/
def isSubstrList : List Char → List Char → Bool
  | needle, [] => needle.isEmpty
  | needle, b :: rest => isPrefixList needle (b :: rest) || isSubstrList needle rest

/-- Tier 2 of `find_matching_subtitle`: first dict entry (insertion order)
whose name contains the non-empty selected name as a substring. -/
def substringTier (dict : List (String × Track)) (selectedName : String) :
    Option Track :=
  (dict.find? (fun p =>
    decide (selectedName ≠ "") && isSubstrList selectedName.data p.1.data)).map Prod.snd

/-- `find_matching_subtitle` (identical in both scripts): four tiers over a
candidate list and a reference track.  Errors model the unguarded
`ZeroDivisionError` of the similarity computation. -/
def findMatchingSubtitle (frenchSubtitles : List Track)
    (selectedSubtitle : Option Track) : Except Unit (Option Track) :=
  match selectedSubtitle with
  | none => .ok none
  | some sel =>
    match frenchSubtitles with
    | [] => .ok none
    | _ :: _ =>
      let dict := buildSubtitleDict frenchSubtitles
      let selectedName := trackNameLower sel
      match exactMatchTier dict selectedName sel.codec with
      | some m => .ok (some m)
      | none =>
        match substringTier dict selectedName with
        | some m => .ok (some m)
        | none => do
          let best ← similarityLoop frenchSubtitles selectedName
          if fracLt (1, 2) best.2 then .ok best.1 else .ok frenchSubtitles.head?

/-- Python `','.join(map(str, ids))`. -/
def joinIds (ids : List Nat) : String := String.intercalate "," (ids.map Nat.repr)

/-- The mkvmerge default-track argument, Python `f-string id:yes`. -/
def defaultTrackFlag (id : Nat) : String := Nat.repr id ++ ":yes"

/-- The loop of `anime_mkvtool_vostfr.process_single_mkv` that resolves the
extra selected subtitles into local ids, skipping unresolved ones and the
main subtitle's id. -/
def resolveExtraSubtitles (frenchSubtitles : List Track)
    (selectedSubtitles : List Track) (mainId : Nat) : Except Unit (List Nat) :=
  selectedSubtitles.foldlM
    (fun acc s => do
      match ← findMatchingSubtitle frenchSubtitles (some s) with
      | some m => if m.id ≠ mainId then pure (acc ++ [m.id]) else pure acc
      | none => pure acc)
    []

/-- The command construction of `anime_mkvtool_vostfr.process_single_mkv`
(lines 517-555), given the already-resolved audio tracks: base command with
a single comma-joined `--audio-tracks` and the first audio as default, then
the subtitle block (resolved main + extras, or `--no-subtitles` when no
main subtitle was selected), then the input path.  `.ok none` is the
early `return False` when no audio track was resolved. -/
def vostfrBuildCommand (mkvmerge_path output_path input_path : String)
    (matching_audio_tracks : List Track) (french_subtitles : List Track)
    (selected_main_subtitle : Option Track) (selected_subtitles : List Track) :
    Except Unit (Option (List String)) :=
  match matching_audio_tracks with
  | [] => .ok none
  | first :: rest => do
    let base := [mkvmerge_path, "-o", output_path,
                 "--audio-tracks", joinIds ((first :: rest).map Track.id),
                 "--default-track", defaultTrackFlag first.id]
    let cmd ←
      match selected_main_subtitle with
      | some mainSel => do
          match ← findMatchingSubtitle french_subtitles (some mainSel) with
          | some mainMatch => do
              let keep ← resolveExtraSubtitles french_subtitles
                           selected_subtitles mainMatch.id
              if mainMatch.id :: keep ≠ [] then
                pure (base ++ ["--subtitle-tracks", joinIds (mainMatch.id :: keep),
                               "--default-track", defaultTrackFlag mainMatch.id])
              else pure base
          | none => pure base
      | none => pure (base ++ ["--no-subtitles"])
    pure (some (cmd ++ [input_path]))

/-- The command construction of `AudioSubManager.process_single_mkv`
(lines 789-799): one `--audio-tracks <id>` pair per selected audio track,
one `--subtitle-tracks <id>` pair per selected subtitle, then the input. -/
def asmBuildCommand (mkvmerge_path output_path input_path : String)
    (selected_audio_tracks selected_subtitles : List Track) : List String :=
  let cmd := [mkvmerge_path, "-o", output_path]
  let cmd := selected_audio_tracks.foldl
    (fun c t => c ++ ["--audio-tracks", Nat.repr t.id]) cmd
  let cmd := selected_subtitles.foldl
    (fun c s => c ++ ["--subtitle-tracks", Nat.repr s.id]) cmd
  cmd ++ [input_path]

/-- The observable outcome of one external-process invocation. -/
structure RunResult where
  returncode : Int
  stdout : String
  stderr : String
deriving DecidableEq

/-- The exception that escapes `get_mkv_tracks` when `json.loads` fails. -/
inductive MetaQueryError where
  | jsonDecodeError
deriving DecidableEq

/-- `get_mkv_tracks` (the second, authoritative definition, identical in
both scripts): `subprocess.run(..., check=True)` raises
`CalledProcessError` on a non-zero exit, which is caught and turned into
`None`; on a zero exit `json.loads(result.stdout)` is returned, and its
`JSONDecodeError` on unparseable output is NOT caught and escapes.  The
JSON parser itself is an external collaborator, passed as `json_loads`. -/
def get_mkv_tracks {α : Type} (json_loads : String → Option α)
    (result : RunResult) : Except MetaQueryError (Option α) :=
  if result.returncode ≠ 0 then .ok none
  else
    match json_loads result.stdout with
    | some v => .ok (some v)
    | none => .error .jsonDecodeError

/-- Python `set.add`: sets are modelled as duplicate-free lists. -/
def setAdd (l : List String) (x : String) : List String :=
  if x ∈ l then l else l ++ [x]

/-- The `ProcessingState` store of `AudioSubManager.py`: the set of
processed filenames and the failed-filename → error-message mapping.
`save_state` / `load_state` are persistence glue and not modelled. -/
structure ProcessingState where
  processed_files : List String
  failed_files : List (String × String)
deriving DecidableEq

/-- `ProcessingState.mark_as_processed`: add to the processed set and
delete any failed entry for the filename. -/
def ProcessingState.mark_as_processed (st : ProcessingState)
    (filename : String) : ProcessingState :=
  ProcessingState.mk (setAdd st.processed_files filename)
    (dictErase st.failed_files filename)

/-- `ProcessingState.mark_as_failed`: record the error message for the
filename; the processed set is left untouched. -/
def ProcessingState.mark_as_failed (st : ProcessingState)
    (filename error : String) : ProcessingState :=
  ProcessingState.mk st.processed_files
    (dictInsert st.failed_files filename error)

/-- `ProcessingState.is_processed`: Python `filename in self.processed_files`. -/
def ProcessingState.is_processed (st : ProcessingState) (filename : String) :
    Bool :=
  decide (filename ∈ st.processed_files)

/-- `ProcessingState.get_failed_files`. -/
def ProcessingState.get_failed_files (st : ProcessingState) :
    List (String × String) :=
  st.failed_files

/-- The spec's store invariant: a filename is in at most one of the
processed set and the failed mapping. -/
def stateInv (st : ProcessingState) : Prop :=
  ∀ f : String, ¬ (f ∈ st.processed_files ∧ f ∈ dictKeys st.failed_files)

/-- The environment one `AudioSubManager.process_single_mkv` job observes:
destination free space, source file size, the outcome of the mkvmerge run
(if it happens), and the state of the produced output file. -/
structure FileJobEnv where
  free_space : Nat
  file_size : Nat
  run : RunResult
  output_exists : Bool
  output_size : Nat
deriving DecidableEq

/-- The insufficient-space message raised at line 786. -/
def insufficientSpaceMsg (filename : String) : String :=
  "Espace disque insuffisant pour traiter " ++ filename

/-- The tool-failure message recorded at line 813. -/
def toolErrorMsg (filename stderrText : String) : String :=
  "Erreur lors du traitement de " ++ filename ++ ": " ++ stderrText

/-- The empty-output message raised at line 806. -/
def emptyOutputMsg (output_path : String) : String :=
  "Le fichier de sortie " ++ output_path ++ " est vide ou n\x27existe pas"

/-- `AudioSubManager.process_single_mkv` as a state transition: the
returned boolean, the updated store, and whether the external tool was
invoked.  `file_size * 1.5` compares exactly as `2 * free < 3 * size`.
The mkvmerge command it builds is `asmBuildCommand`; only the run outcome
in `env` decides the result. -/
def asm_process_single_mkv (env : FileJobEnv) (output_dir filename : String)
    (st : ProcessingState) : Bool × ProcessingState × Bool :=
  if st.is_processed filename then (true, st, false)
  else
    let output_path := output_dir ++ "/processed_" ++ filename
    if env.free_space * 2 < env.file_size * 3 then
      (false, st.mark_as_failed filename (insufficientSpaceMsg filename), false)
    else if env.run.returncode ≠ 0 then
      (false, st.mark_as_failed filename (toolErrorMsg filename env.run.stderr), true)
    else if env.output_exists = false ∨ env.output_size = 0 then
      (false, st.mark_as_failed filename (emptyOutputMsg output_path), true)
    else
      (true, st.mark_as_processed filename, true)

/-- The unit loop of `format_size`: return `size` with the current unit
when below 1024, else divide and move to the next unit; an exhausted unit
list is Python's implicit `return None`. -/
def format_size_go : List String → ℚ → Option (ℚ × String)
  | [], _ => none
  | u :: rest, size =>
    if size < 1024 then some (size, u) else format_size_go rest (size / 1024)

/-- `format_size` (identical in both scripts).  The source formats the
returned value and unit with an f-string; the embedding keeps the pair. -/
def format_size (size_bytes : ℚ) : Option (ℚ × String) :=
  format_size_go ["octets", "Ko", "Mo", "Go", "To"] size_bytes

/-- Python `int(x)` on a float: truncation toward zero. -/
def intTrunc (q : ℚ) : ℤ := if 0 ≤ q then ⌊q⌋ else ⌈q⌉

/-- `CONFIG MIN_PROCESSES` of `AudioSubManager.py`. -/
def MIN_PROCESSES : ℤ := 2

/-- `CONFIG MAX_PROCESSES` of `AudioSubManager.py`. -/
def MAX_PROCESSES : ℤ := 8

/-- `max_cpu` of `AudioSubManager.calculate_optimal_processes`: half the
cores when more than 4, all of them otherwise. -/
def max_cpu (cpu_count : Nat) : Nat :=
  if 4 < cpu_count then cpu_count / 2 else cpu_count

/-- `memory_based_processes`:
`int(available_memory * (1 - 0.2) / (500 * 1024 * 1024))`. -/
def memory_based_processes (available_memory : Nat) : ℤ :=
  intTrunc ((available_memory : ℚ) * (1 - 1/5) / (500 * 1024 * 1024))

/-- `cpu_based_processes`: `int(max_cpu * (1 - cpu_load / 100))`. -/
def cpu_based_processes (cpu_count : Nat) (cpu_percent : ℚ) : ℤ :=
  intTrunc ((max_cpu cpu_count : ℚ) * (1 - cpu_percent / 100))

/-- `AudioSubManager.calculate_optimal_processes` as a function of the
sampled system state (core count, available memory in bytes, CPU load in
percent): the three caps, their minimum, and the final
`max(MIN_PROCESSES, min(optimal, MAX_PROCESSES))`. -/
def calculate_optimal_processes (cpu_count available_memory : Nat)
    (cpu_percent : ℚ) : ℤ :=
  let optimal := min (memory_based_processes available_memory)
    (min (cpu_based_processes cpu_count cpu_percent) (max_cpu cpu_count : ℤ))
  max MIN_PROCESSES (min optimal MAX_PROCESSES)

/-- `CONFIG MIN_PROCESSES` of `anime_mkvtool_vostfr.py`. -/
def vostfr_MIN_PROCESSES : Nat := 4

/-- `anime_mkvtool_vostfr.calculate_optimal_processes`:
`min(total_cores, max(1, int(available / (500 MiB))), max(total_cores // 2,
MIN_PROCESSES))` — with no lower or upper clamp on the result. -/
def vostfr_calculate_optimal_processes (total_cores available_memory : Nat) :
    Nat :=
  let estimated_memory_per_process := 500 * 1024 * 1024
  let memory_based_processes :=
    max 1 (available_memory / estimated_memory_per_process)
  min total_cores
    (min memory_based_processes (max (total_cores / 2) vostfr_MIN_PROCESSES))

/-- Concrete audio track 1 used in counterexamples. -/
def audioT1 : Track := ⟨1, "audio", some "jpn", some "Japanese", some "AAC"⟩

/-- Concrete audio track 2 used in counterexamples. -/
def audioT2 : Track := ⟨2, "audio", some "jpn", some "Commentary", some "AAC"⟩

/-- A subtitle candidate named "French" occurring first in catalog order. -/
def frTrackA : Track := ⟨1, "subtitles", some "fre", some "French", some "S_TEXT/ASS"⟩

/-- A second subtitle candidate with the same name and codec as `frTrackA`. -/
def frTrackB : Track := ⟨2, "subtitles", some "fre", some "French", some "S_TEXT/ASS"⟩

/-- A reference track with the same name and codec as both `frTrackA` and
`frTrackB`. -/
def frTrackSel : Track := ⟨5, "subtitles", some "fre", some "French", some "S_TEXT/ASS"⟩

/-- The spec's similarity scenario: reference named "Full Subs". -/
def fullSubsRef : Track := ⟨0, "subtitles", some "fre", some "Full Subs", some "S_TEXT/ASS"⟩

/-- The spec's similarity scenario: sole candidate named "Full Subtitles". -/
def fullSubtitlesCand : Track := ⟨3, "subtitles", some "fre", some "Full Subtitles", some "S_TEXT/ASS"⟩

/-- A candidate with no display name (UTF-8 subtitle codec). -/
def noNameCand : Track := ⟨1, "subtitles", some "fre", none, some "S_TEXT/UTF8"⟩

/-- A reference with no display name and a different codec. -/
def noNameRef : Track := ⟨0, "subtitles", some "fre", none, some "S_TEXT/ASS"⟩

/-- Subtitle candidates with pairwise-distinct names, for the amended
first-in-catalog-order property. -/
def dlgTrack : Track := ⟨1, "subtitles", some "fre", some "Dialogue", some "S_TEXT/ASS"⟩

/-- Second distinct-name candidate. -/
def signsTrack : Track := ⟨2, "subtitles", some "fre", some "Signs", some "S_TEXT/ASS"⟩

/-- Reference matching `signsTrack` exactly. -/
def signsSel : Track := ⟨9, "subtitles", some "fre", some "Signs", some "S_TEXT/ASS"⟩

theorem mem_setAdd (l : List String) (x g : String) :
    g ∈ setAdd l x ↔ g ∈ l ∨ g = x := by
  unfold setAdd
  by_cases h : x ∈ l
  · simp only [if_pos h]
    constructor
    · exact fun hg => Or.inl hg
    · rintro (hg | rfl) <;> assumption
  · simp [if_neg h]

theorem dictKeys_dictErase_not_self {α : Type} (d : List (String × α)) (k : String) :
    k ∉ dictKeys (dictErase d k) := by
  intro h
  simp only [dictKeys, dictErase, List.mem_map, List.mem_filter] at h
  obtain ⟨p, ⟨_, hp⟩, rfl⟩ := h
  simp at hp

theorem mem_dictKeys_dictErase {α : Type} (d : List (String × α)) (k g : String) :
    g ∈ dictKeys (dictErase d k) → g ∈ dictKeys d := by
  intro h
  simp only [dictKeys, dictErase, List.mem_map, List.mem_filter] at h ⊢
  obtain ⟨p, ⟨hp, _⟩, rfl⟩ := h
  exact ⟨p, hp, rfl⟩

theorem mem_dictKeys_dictInsert {α : Type} (d : List (String × α)) (k : String)
    (v : α) (g : String) :
    g ∈ dictKeys (dictInsert d k v) → g ∈ dictKeys d ∨ g = k := by
  intro h
  unfold dictInsert at h
  by_cases hc : d.any (fun p => decide (p.1 = k)) = true
  · rw [if_pos hc, dictKeys, List.map_map] at h
    obtain ⟨p, hp, hg⟩ := List.mem_map.mp h
    by_cases hk : p.1 = k
    · refine Or.inr ?_
      have hpk : (Prod.fst ∘ fun p : String × α =>
          if p.1 = k then (k, v) else p) p = k := by
        simp [Function.comp, if_pos hk]
      rw [hpk] at hg
      exact hg.symm
    · refine Or.inl ?_
      have hpk : (Prod.fst ∘ fun p : String × α =>
          if p.1 = k then (k, v) else p) p = p.1 := by
        simp [Function.comp, if_neg hk]
      rw [hpk] at hg
      exact List.mem_map.mpr ⟨p, hp, hg⟩
  · rw [if_neg hc] at h
    simp only [dictKeys, List.map_append, List.mem_append, List.mem_map] at h
    rcases h with h | h
    · exact Or.inl (by simp only [dictKeys, List.mem_map]; exact h)
    · simp at h
      exact Or.inr h.symm

theorem find?_map_update_self {α : Type} (d : List (String × α)) (k : String)
    (v : α) (hc : d.any (fun p => decide (p.1 = k)) = true) :
    (d.map (fun p => if p.1 = k then (k, v) else p)).find?
      (fun p => decide (p.1 = k)) = some (k, v) := by
  induction d with
  | nil => simp at hc
  | cons p rest ih =>
    by_cases hk : p.1 = k
    · simp [List.find?_cons, if_pos hk]
    · have hc' : rest.any (fun p => decide (p.1 = k)) = true := by
        simp only [List.any_cons, Bool.or_eq_true, decide_eq_true_eq] at hc
        rcases hc with hc | hc
        · exact absurd hc hk
        · exact hc
      rw [List.map_cons, if_neg hk, List.find?_cons]
      have hkb : (decide (p.1 = k)) = false := decide_eq_false hk
      rw [hkb]
      exact ih hc'

theorem find?_append_fresh {α : Type} (d : List (String × α)) (k : String)
    (v : α) (hc : d.any (fun p => decide (p.1 = k)) = false) :
    (d ++ [(k, v)]).find? (fun p => decide (p.1 = k)) = some (k, v) := by
  induction d with
  | nil => simp [List.find?_cons]
  | cons p rest ih =>
    simp only [List.any_cons, Bool.or_eq_false_iff] at hc
    rw [List.cons_append, List.find?_cons, hc.1]
    exact ih hc.2

theorem dictGet_dictInsert_self {α : Type} (d : List (String × α)) (k : String)
    (v : α) :
    dictGet (dictInsert d k v) k = some v := by
  unfold dictGet dictInsert
  by_cases hc : d.any (fun p => decide (p.1 = k)) = true
  · rw [if_pos hc, find?_map_update_self d k v hc]
    rfl
  · rw [if_neg hc, find?_append_fresh d k v (Bool.eq_false_iff.mpr hc)]
    rfl

/-- C1 (counterexample): starting from the empty store, `mark_as_processed
"a"` then `mark_as_failed "a" "x"` leaves `"a"` in BOTH the processed set
and the failed mapping, so `mark_as_failed` does not preserve the
at-most-one invariant. -/
theorem mark_as_failed_breaks_exclusivity :
    ("a" ∈ (((ProcessingState.mk [] []).mark_as_processed "a").mark_as_failed "a" "x").processed_files
      ∧ "a" ∈ dictKeys (((ProcessingState.mk [] []).mark_as_processed "a").mark_as_failed "a" "x").failed_files)
    ∧ ¬ stateInv (((ProcessingState.mk [] []).mark_as_processed "a").mark_as_failed "a" "x") := by
  refine ⟨⟨by decide, by decide⟩, fun h => h "a" ⟨by decide, by decide⟩⟩

/-- C1 (amended): `mark_as_processed f` always puts `f` in the processed
set, removes it from the failed mapping, and preserves the at-most-one
invariant; `mark_as_failed f e` leaves the processed set unchanged, so it
preserves the invariant only under the additional hypothesis that `f` is
not already processed. -/
theorem state_invariant_amended (st : ProcessingState) (f e : String)
    (hinv : stateInv st) :
    ((st.mark_as_processed f).is_processed f = true
      ∧ f ∉ dictKeys (st.mark_as_processed f).failed_files)
    ∧ stateInv (st.mark_as_processed f)
    ∧ (st.is_processed f = false → stateInv (st.mark_as_failed f e)) := by
  refine ⟨⟨?_, ?_⟩, ?_, ?_⟩
  · simp only [ProcessingState.is_processed, ProcessingState.mark_as_processed,
      decide_eq_true_eq]
    exact (mem_setAdd _ _ _).mpr (Or.inr rfl)
  · exact dictKeys_dictErase_not_self _ _
  · intro g ⟨hg1, hg2⟩
    simp only [ProcessingState.mark_as_processed] at hg1 hg2
    rcases (mem_setAdd _ _ _).mp hg1 with hg | rfl
    · exact hinv g ⟨hg, mem_dictKeys_dictErase _ _ _ hg2⟩
    · exact dictKeys_dictErase_not_self _ _ hg2
  · intro hnp g ⟨hg1, hg2⟩
    simp only [ProcessingState.mark_as_failed] at hg1 hg2
    rcases mem_dictKeys_dictInsert _ _ _ _ hg2 with hg | rfl
    · exact hinv g ⟨hg1, hg⟩
    · rw [ProcessingState.is_processed, decide_eq_false_iff_not] at hnp
      exact hnp hg1

/-- C1 (witness for the amended theorem): concrete application at a store
holding one processed and one failed file. -/
theorem state_invariant_amended_check :
    stateInv (ProcessingState.mk ["a.mkv"] [("b.mkv", "boom")])
    ∧ (((ProcessingState.mk ["a.mkv"] [("b.mkv", "boom")]).mark_as_processed "c.mkv").is_processed "c.mkv" = true
        ∧ "c.mkv" ∉ dictKeys ((ProcessingState.mk ["a.mkv"] [("b.mkv", "boom")]).mark_as_processed "c.mkv").failed_files)
    ∧ stateInv ((ProcessingState.mk ["a.mkv"] [("b.mkv", "boom")]).mark_as_processed "c.mkv")
    ∧ ((ProcessingState.mk ["a.mkv"] [("b.mkv", "boom")]).is_processed "c.mkv" = false
        → stateInv ((ProcessingState.mk ["a.mkv"] [("b.mkv", "boom")]).mark_as_failed "c.mkv" "err")) := by
  have hinv : stateInv (ProcessingState.mk ["a.mkv"] [("b.mkv", "boom")]) := by
    intro f ⟨h1, h2⟩
    simp only [dictKeys] at h2
    simp at h1 h2
    rw [h1] at h2
    exact absurd h2 (by decide)
  exact ⟨hinv, state_invariant_amended (ProcessingState.mk ["a.mkv"] [("b.mkv", "boom")]) "c.mkv" "err" hinv⟩

/-- C8: a filename already recorded as processed makes
`process_single_mkv` return `True` immediately, with the state store
untouched and the external tool not invoked. -/
theorem processed_file_skipped (env : FileJobEnv) (output_dir filename : String)
    (st : ProcessingState) (h : st.is_processed filename = true) :
    asm_process_single_mkv env output_dir filename st = (true, st, false) := by
  unfold asm_process_single_mkv
  rw [h]
  rfl

/-- C8 (witness): a store already holding `"ep1.mkv"` skips that file. -/
theorem processed_file_skipped_check :
    (ProcessingState.mk ["ep1.mkv"] []).is_processed "ep1.mkv" = true
    ∧ asm_process_single_mkv (FileJobEnv.mk 1000 10 (RunResult.mk 0 "" "") true 5)
        "out" "ep1.mkv" (ProcessingState.mk ["ep1.mkv"] [])
      = (true, ProcessingState.mk ["ep1.mkv"] [], false) :=
  ⟨by decide, processed_file_skipped _ _ _ _ (by decide)⟩

/-- C9: when destination free space is strictly below 1.5 times the source
size (`2 * free < 3 * size` exactly), the job fails before invoking the
tool, recording the insufficient-space reason for the filename. -/
theorem insufficient_space_fails_early (env : FileJobEnv)
    (output_dir filename : String) (st : ProcessingState)
    (h1 : st.is_processed filename = false)
    (h2 : env.free_space * 2 < env.file_size * 3) :
    asm_process_single_mkv env output_dir filename st
      = (false, st.mark_as_failed filename (insufficientSpaceMsg filename), false)
    ∧ dictGet (st.mark_as_failed filename
        (insufficientSpaceMsg filename)).failed_files filename
      = some (insufficientSpaceMsg filename) := by
  constructor
  · unfold asm_process_single_mkv
    rw [h1]
    simp [h2]
  · exact dictGet_dictInsert_self _ _ _

/-- C9 (witness): 1 byte free against a 100-byte file fails with the
insufficient-space reason and no tool invocation. -/
theorem insufficient_space_fails_early_check :
    ((ProcessingState.mk [] []).is_processed "big.mkv" = false
      ∧ (FileJobEnv.mk 1 100 (RunResult.mk 0 "" "") true 5).free_space * 2
          < (FileJobEnv.mk 1 100 (RunResult.mk 0 "" "") true 5).file_size * 3)
    ∧ asm_process_single_mkv (FileJobEnv.mk 1 100 (RunResult.mk 0 "" "") true 5)
        "out" "big.mkv" (ProcessingState.mk [] [])
      = (false, (ProcessingState.mk [] []).mark_as_failed "big.mkv"
          (insufficientSpaceMsg "big.mkv"), false)
    ∧ dictGet ((ProcessingState.mk [] []).mark_as_failed "big.mkv"
        (insufficientSpaceMsg "big.mkv")).failed_files "big.mkv"
      = some (insufficientSpaceMsg "big.mkv") :=
  ⟨⟨by decide, by decide⟩,
   (insufficient_space_fails_early (FileJobEnv.mk 1 100 (RunResult.mk 0 "" "") true 5)
     "out" "big.mkv" (ProcessingState.mk [] []) (by decide) (by decide)).1,
   (insufficient_space_fails_early (FileJobEnv.mk 1 100 (RunResult.mk 0 "" "") true 5)
     "out" "big.mkv" (ProcessingState.mk [] []) (by decide) (by decide)).2⟩

/-- C7 (counterexample): a zero exit with unparseable stdout makes
`get_mkv_tracks` raise the JSON-decode exception instead of returning
`None` — the `except` clause only catches `CalledProcessError`. -/
theorem invalid_json_propagates :
    @get_mkv_tracks Unit (fun _ => none) (RunResult.mk 0 "not json" "")
      = .error .jsonDecodeError
    ∧ @get_mkv_tracks Unit (fun _ => none) (RunResult.mk 0 "not json" "")
      ≠ .ok none :=
  ⟨by decide, by decide⟩

/-- C7 (amended): `get_mkv_tracks` returns `None` exactly when the inspect
invocation exits non-zero; on a zero exit it returns the parsed document
when stdout is valid JSON and raises (propagates `JSONDecodeError`)
otherwise. -/
theorem metadata_none_iff_nonzero_exit {α : Type}
    (json_loads : String → Option α) (result : RunResult) :
    (get_mkv_tracks json_loads result = .ok none ↔ result.returncode ≠ 0)
    ∧ (result.returncode = 0 →
        get_mkv_tracks json_loads result
          = match json_loads result.stdout with
            | some v => .ok (some v)
            | none => .error .jsonDecodeError) := by
  unfold get_mkv_tracks
  by_cases h : result.returncode = 0
  · have hcond : ¬ (result.returncode ≠ 0) := not_not_intro h
    rw [if_neg hcond]
    refine ⟨⟨?_, ?_⟩, fun _ => rfl⟩
    · intro habs
      cases hj : json_loads result.stdout with
      | some v => rw [hj] at habs; simp at habs
      | none => rw [hj] at habs; simp at habs
    · intro habs
      exact absurd h habs
  · rw [if_pos h]
    exact ⟨⟨fun _ => h, fun _ => rfl⟩, fun h0 => absurd h0 h⟩

/-- C7 (witness): exit code 2 yields `None` whatever stdout holds. -/
theorem metadata_none_iff_nonzero_exit_check :
    @get_mkv_tracks Unit (fun _ => some ()) (RunResult.mk 2 "" "boom")
      = .ok none :=
  (metadata_none_iff_nonzero_exit (fun _ => some ())
    (RunResult.mk 2 "" "boom")).1.mpr (by decide)

/-- C6: with a reference and a sole candidate both lacking a display name
(and different codecs, so the exact tier falls through), the similarity
computation divides by `max(0, 0) = 0` and `find_matching_subtitle` raises
`ZeroDivisionError` instead of returning a value. -/
theorem matcher_division_by_zero :
    findMatchingSubtitle [noNameCand] (some noNameRef) = .error ()
    ∧ wordSimilarity (trackNameLower noNameRef) (trackNameLower noNameCand)
      = .error () :=
  ⟨by decide, by decide⟩

/-- C10: `format_size` returns `None` exactly for sizes of at least
`1024^5` bytes, because the five-unit loop is exhausted without returning;
every smaller nonnegative size yields a formatted value. -/
theorem format_size_threshold (s : ℚ) :
    ((1024 : ℚ)^5 ≤ s → format_size s = none)
    ∧ (0 ≤ s → s < (1024 : ℚ)^5 → (format_size s).isSome = true) := by
  have h0 : (0 : ℚ) < 1024 := by norm_num
  have step : ∀ (u : String) (rest : List String) (x : ℚ), ¬ x < 1024 →
      format_size_go (u :: rest) x = format_size_go rest (x / 1024) := by
    intro u rest x hx
    rw [format_size_go, if_neg hx]
  have stop : ∀ (u : String) (rest : List String) (x : ℚ), x < 1024 →
      format_size_go (u :: rest) x = some (x, u) := by
    intro u rest x hx
    rw [format_size_go, if_pos hx]
  constructor
  · intro h
    have b4 : (1024:ℚ)^4 ≤ s / 1024 := by
      rw [le_div_iff₀ h0, show (1024:ℚ)^4 * 1024 = 1024^5 by ring]
      exact h
    have b3 : (1024:ℚ)^3 ≤ s / 1024 / 1024 := by
      rw [le_div_iff₀ h0, show (1024:ℚ)^3 * 1024 = 1024^4 by ring]
      exact b4
    have b2 : (1024:ℚ)^2 ≤ s / 1024 / 1024 / 1024 := by
      rw [le_div_iff₀ h0, show (1024:ℚ)^2 * 1024 = 1024^3 by ring]
      exact b3
    have b1 : (1024:ℚ) ≤ s / 1024 / 1024 / 1024 / 1024 := by
      rw [le_div_iff₀ h0, show (1024:ℚ) * 1024 = 1024^2 by ring]
      exact b2
    have n5 : ¬ s < 1024 := not_lt.mpr (le_trans (by norm_num) h)
    have n4 : ¬ s / 1024 < 1024 := not_lt.mpr (le_trans (by norm_num) b4)
    have n3 : ¬ s / 1024 / 1024 < 1024 := not_lt.mpr (le_trans (by norm_num) b3)
    have n2 : ¬ s / 1024 / 1024 / 1024 < 1024 :=
      not_lt.mpr (le_trans (by norm_num) b2)
    have n1 : ¬ s / 1024 / 1024 / 1024 / 1024 < 1024 := not_lt.mpr b1
    unfold format_size
    rw [step _ _ _ n5, step _ _ _ n4, step _ _ _ n3, step _ _ _ n2,
      step _ _ _ n1]
    rfl
  · intro _ hub
    unfold format_size
    rcases lt_or_le s 1024 with c1 | c1
    · rw [stop _ _ _ c1]; rfl
    · rw [step _ _ _ (not_lt.mpr c1)]
      rcases lt_or_le (s / 1024) 1024 with c2 | c2
      · rw [stop _ _ _ c2]; rfl
      · rw [step _ _ _ (not_lt.mpr c2)]
        rcases lt_or_le (s / 1024 / 1024) 1024 with c3 | c3
        · rw [stop _ _ _ c3]; rfl
        · rw [step _ _ _ (not_lt.mpr c3)]
          rcases lt_or_le (s / 1024 / 1024 / 1024) 1024 with c4 | c4
          · rw [stop _ _ _ c4]; rfl
          · rw [step _ _ _ (not_lt.mpr c4)]
            have c5 : s / 1024 / 1024 / 1024 / 1024 < 1024 := by
              rw [div_lt_iff₀ h0, div_lt_iff₀ h0, div_lt_iff₀ h0, div_lt_iff₀ h0,
                show (1024:ℚ) * 1024 * 1024 * 1024 * 1024 = 1024^5 by ring]
              exact hub
            rw [stop _ _ _ c5]
            rfl

/-- C10 (witness): `1024^5` bytes is not formatted, zero bytes is. -/
theorem format_size_threshold_check :
    format_size ((1024 : ℚ)^5) = none ∧ (format_size 0).isSome = true :=
  ⟨(format_size_threshold (1024^5)).1 le_rfl,
   (format_size_threshold 0).2 le_rfl (by norm_num)⟩

/-- C2 (counterexample): the sizer of `anime_mkvtool_vostfr.py`, with 8
cores and 500 MiB of available memory, returns 1 — strictly below that
script's configured minimum of 4, because its final `min` is never clamped
from below. -/
theorem vostfr_sizer_below_minimum :
    vostfr_calculate_optimal_processes 8 (500 * 1024 * 1024) = 1
    ∧ vostfr_calculate_optimal_processes 8 (500 * 1024 * 1024)
        < vostfr_MIN_PROCESSES :=
  ⟨by decide, by decide⟩

/-- C2 (amended, for the `AudioSubManager.py` sizer): the result is
`min(mem_cap, load_cap, cpu_cap)` clamped into
`MIN_PROCESSES .. MAX_PROCESSES` — equal to the raw minimum when that lies
in range, pinned to the bound otherwise, and always within the bounds. -/
theorem optimal_processes_clamped (cpu_count available_memory : Nat)
    (cpu_percent : ℚ) :
    MIN_PROCESSES ≤ calculate_optimal_processes cpu_count available_memory cpu_percent
    ∧ calculate_optimal_processes cpu_count available_memory cpu_percent ≤ MAX_PROCESSES
    ∧ (MIN_PROCESSES ≤ min (memory_based_processes available_memory)
          (min (cpu_based_processes cpu_count cpu_percent) (max_cpu cpu_count : ℤ)) →
       min (memory_based_processes available_memory)
          (min (cpu_based_processes cpu_count cpu_percent) (max_cpu cpu_count : ℤ))
          ≤ MAX_PROCESSES →
       calculate_optimal_processes cpu_count available_memory cpu_percent
         = min (memory_based_processes available_memory)
             (min (cpu_based_processes cpu_count cpu_percent) (max_cpu cpu_count : ℤ)))
    ∧ (min (memory_based_processes available_memory)
          (min (cpu_based_processes cpu_count cpu_percent) (max_cpu cpu_count : ℤ))
          < MIN_PROCESSES →
       calculate_optimal_processes cpu_count available_memory cpu_percent
         = MIN_PROCESSES)
    ∧ (MAX_PROCESSES < min (memory_based_processes available_memory)
          (min (cpu_based_processes cpu_count cpu_percent) (max_cpu cpu_count : ℤ)) →
       calculate_optimal_processes cpu_count available_memory cpu_percent
         = MAX_PROCESSES) := by
  simp only [calculate_optimal_processes, MIN_PROCESSES, MAX_PROCESSES]
  omega

/-- C2 (witness): the spec's example — 8 cores, 2 GiB available, no load —
yields the in-range raw minimum, namely 3. -/
theorem optimal_processes_clamped_check :
    calculate_optimal_processes 8 2147483648 0
      = min (memory_based_processes 2147483648)
          (min (cpu_based_processes 8 0) (max_cpu 8 : ℤ)) := by
  have hmc : max_cpu 8 = 4 := by decide
  have hm : memory_based_processes 2147483648 = 3 := by
    rw [memory_based_processes, intTrunc, if_pos (by norm_num)]
    rw [Int.floor_eq_iff]
    norm_num
  have hc : cpu_based_processes 8 0 = 4 := by
    rw [cpu_based_processes, hmc, intTrunc, if_pos (by norm_num)]
    rw [Int.floor_eq_iff]
    norm_num
  exact (optimal_processes_clamped 8 2147483648 0).2.2.1
    (by rw [hm, hc, hmc]; decide) (by rw [hm, hc, hmc]; decide)

/-- C4 (counterexample): two candidates share the name and codec of the
reference; both qualify for the exact tier, yet the dict comprehension has
overwritten the first with the second, so the SECOND in catalog order is
returned. -/
theorem exact_tier_returns_last_duplicate :
    findMatchingSubtitle [frTrackA, frTrackB] (some frTrackSel) = .ok (some frTrackB)
    ∧ frTrackB ≠ frTrackA
    ∧ trackNameLower frTrackA = trackNameLower frTrackSel
    ∧ frTrackA.codec = frTrackSel.codec :=
  ⟨by decide, by decide, by decide, by decide⟩

theorem foldl_dictInsert_fresh (subs : List Track) (acc : List (String × Track))
    (hnd : (subs.map trackNameLower).Nodup)
    (hfresh : ∀ s ∈ subs, trackNameLower s ∉ dictKeys acc) :
    subs.foldl (fun d s => dictInsert d (trackNameLower s) s) acc
      = acc ++ subs.map (fun s => (trackNameLower s, s)) := by
  induction subs generalizing acc with
  | nil => simp
  | cons t rest ih =>
    simp only [List.map_cons, List.nodup_cons] at hnd
    rw [List.foldl_cons]
    have hnotin : trackNameLower t ∉ dictKeys acc :=
      hfresh t (List.mem_cons_self t rest)
    have hins : dictInsert acc (trackNameLower t) t
        = acc ++ [(trackNameLower t, t)] := by
      unfold dictInsert
      have hany : acc.any (fun p => decide (p.1 = trackNameLower t)) = false := by
        rw [List.any_eq_false]
        intro p hp
        simp only [decide_eq_true_eq]
        intro hpk
        exact hnotin (List.mem_map.mpr ⟨p, hp, hpk⟩)
      rw [hany]
      simp
    rw [hins]
    have hfresh' : ∀ s ∈ rest,
        trackNameLower s ∉ dictKeys (acc ++ [(trackNameLower t, t)]) := by
      intro s hs
      rw [dictKeys, List.map_append, List.mem_append]
      rintro (h | h)
      · exact hfresh s (List.mem_cons_of_mem _ hs) h
      · simp only [List.map_cons, List.map_nil, List.mem_singleton] at h
        have hmem : trackNameLower s ∈ rest.map trackNameLower :=
          List.mem_map.mpr ⟨s, hs, rfl⟩
        rw [h] at hmem
        exact hnd.1 hmem
    rw [ih (acc ++ [(trackNameLower t, t)]) hnd.2 hfresh']
    simp

theorem buildSubtitleDict_of_nodup (subs : List Track)
    (hnd : (subs.map trackNameLower).Nodup) :
    buildSubtitleDict subs = subs.map (fun s => (trackNameLower s, s)) := by
  have h := foldl_dictInsert_fresh subs [] hnd (by intro s _; simp [dictKeys])
  simpa [buildSubtitleDict] using h

theorem dictGet_map_pairing (subs : List Track) (selName : String) :
    dictGet (subs.map (fun s => (trackNameLower s, s))) selName
      = subs.find? (fun t => decide (trackNameLower t = selName)) := by
  rw [dictGet, List.find?_map, Option.map_map]
  have hpred : ((fun p : String × Track => decide (p.1 = selName)) ∘
      fun s => (trackNameLower s, s))
      = fun t => decide (trackNameLower t = selName) := rfl
  rw [hpred]
  cases h : subs.find? (fun t => decide (trackNameLower t = selName)) <;> simp

theorem find?_name_and_codec_of_nodup (subs : List Track) (selName : String)
    (codec : Option String) (hnd : (subs.map trackNameLower).Nodup) :
    (match subs.find? (fun t => decide (trackNameLower t = selName)) with
     | some m => if m.codec = codec then some m else none
     | none => none)
      = subs.find? (fun t =>
          decide (trackNameLower t = selName ∧ t.codec = codec)) := by
  induction subs with
  | nil => rfl
  | cons t rest ih =>
    simp only [List.map_cons, List.nodup_cons] at hnd
    by_cases hname : trackNameLower t = selName
    · rw [@List.find?_cons_of_pos _ (fun t => decide (trackNameLower t = selName))
        t rest (decide_eq_true hname)]
      dsimp only
      by_cases hcodec : t.codec = codec
      · rw [@List.find?_cons_of_pos _
          (fun t => decide (trackNameLower t = selName ∧ t.codec = codec))
          t rest (decide_eq_true ⟨hname, hcodec⟩), if_pos hcodec]
      · rw [@List.find?_cons_of_neg _
          (fun t => decide (trackNameLower t = selName ∧ t.codec = codec))
          t rest (by simp [hname, hcodec]), if_neg hcodec, eq_comm,
          List.find?_eq_none]
        intro u hu
        simp only [decide_eq_true_eq]
        rintro ⟨hn, _⟩
        have hmem : trackNameLower u ∈ rest.map trackNameLower :=
          List.mem_map.mpr ⟨u, hu, rfl⟩
        rw [hn, ← hname] at hmem
        exact hnd.1 hmem
    · rw [@List.find?_cons_of_neg _ (fun t => decide (trackNameLower t = selName))
        t rest (by simp [hname]),
        @List.find?_cons_of_neg _
          (fun t => decide (trackNameLower t = selName ∧ t.codec = codec))
          t rest (by simp [hname])]
      exact ih hnd.2

/-- C4 (amended): the dict maps each lowered name to the LAST candidate
bearing it, so first-in-catalog-order only holds when the candidates'
lowered names are pairwise distinct; under that hypothesis the exact tier
returns the first (unique) name-and-codec match and the substring tier the
first candidate whose name contains the reference name. -/
theorem matcher_tiers_first_in_order (subs : List Track) (sel : Track)
    (hnd : (subs.map trackNameLower).Nodup) :
    exactMatchTier (buildSubtitleDict subs) (trackNameLower sel) sel.codec
      = subs.find? (fun t =>
          decide (trackNameLower t = trackNameLower sel ∧ t.codec = sel.codec))
    ∧ substringTier (buildSubtitleDict subs) (trackNameLower sel)
      = subs.find? (fun t => decide (trackNameLower sel ≠ "")
          && isSubstrList (trackNameLower sel).data (trackNameLower t).data) := by
  rw [buildSubtitleDict_of_nodup subs hnd]
  constructor
  · rw [exactMatchTier, dictGet_map_pairing]
    exact find?_name_and_codec_of_nodup subs (trackNameLower sel) sel.codec hnd
  · rw [substringTier, List.find?_map, Option.map_map]
    have hpred : ((fun p : String × Track => decide (trackNameLower sel ≠ "")
        && isSubstrList (trackNameLower sel).data p.1.data) ∘
        fun s => (trackNameLower s, s))
        = fun t => decide (trackNameLower sel ≠ "")
            && isSubstrList (trackNameLower sel).data (trackNameLower t).data := rfl
    rw [hpred]
    cases h : subs.find? (fun t => decide (trackNameLower sel ≠ "")
        && isSubstrList (trackNameLower sel).data (trackNameLower t).data) <;> simp

/-- C4 (witness for the amended theorem): two candidates with distinct
names; the exact tier returns the unique match of the reference. -/
theorem matcher_tiers_first_in_order_check :
    ([dlgTrack, signsTrack].map trackNameLower).Nodup
    ∧ exactMatchTier (buildSubtitleDict [dlgTrack, signsTrack])
        (trackNameLower signsSel) signsSel.codec
      = [dlgTrack, signsTrack].find? (fun t =>
          decide (trackNameLower t = trackNameLower signsSel ∧ t.codec = signsSel.codec))
    ∧ substringTier (buildSubtitleDict [dlgTrack, signsTrack]) (trackNameLower signsSel)
      = [dlgTrack, signsTrack].find? (fun t => decide (trackNameLower signsSel ≠ "")
          && isSubstrList (trackNameLower signsSel).data (trackNameLower t).data) :=
  ⟨by decide,
   (matcher_tiers_first_in_order [dlgTrack, signsTrack] signsSel (by decide)).1,
   (matcher_tiers_first_in_order [dlgTrack, signsTrack] signsSel (by decide)).2⟩

theorem fracLt_iff_div_lt (a b : Nat × Nat) (ha : 0 < a.2) (hb : 0 < b.2) :
    fracLt a b = true ↔ (a.1 : ℚ) / (a.2 : ℚ) < (b.1 : ℚ) / (b.2 : ℚ) := by
  rw [fracLt, decide_eq_true_eq,
    div_lt_div_iff₀ (by exact_mod_cast ha) (by exact_mod_cast hb)]
  exact_mod_cast Iff.rfl

/-- C5: the similarity tier accepts only when the highest similarity
strictly exceeds one half; when it does not, `find_matching_subtitle`
falls through to the fallback and returns the first candidate in catalog
order. -/
theorem similarity_tier_threshold (subs : List Track) (sel : Track)
    (bm : Option Track) (hi : Nat × Nat)
    (h1 : exactMatchTier (buildSubtitleDict subs) (trackNameLower sel)
        sel.codec = none)
    (h2 : substringTier (buildSubtitleDict subs) (trackNameLower sel) = none)
    (h3 : similarityLoop subs (trackNameLower sel) = .ok (bm, hi))
    (hpos : 0 < hi.2)
    (h4 : (hi.1 : ℚ) / (hi.2 : ℚ) ≤ 1 / 2) :
    findMatchingSubtitle subs (some sel) = .ok subs.head? := by
  have hflt : fracLt (1, 2) hi = false := by
    rw [Bool.eq_false_iff]
    intro hcon
    have hlt := (fracLt_iff_div_lt (1, 2) hi (by norm_num) hpos).mp hcon
    push_cast at hlt
    exact absurd h4 (not_le.mpr hlt)
  cases subs with
  | nil => rfl
  | cons a rest =>
    simp only [findMatchingSubtitle, h1, h2, h3, List.head?_cons]
    show (if fracLt (1, 2) hi = true then Except.ok bm else Except.ok (some a))
        = Except.ok (some a)
    rw [hflt]
    simp

/-- C5 (witness): the spec's "Full Subs" vs "Full Subtitles" case — one
common word out of max set size 2 gives similarity exactly one half, which
the strict threshold rejects, so the fallback returns the sole (first)
candidate. -/
theorem similarity_tier_threshold_check :
    (exactMatchTier (buildSubtitleDict [fullSubtitlesCand])
        (trackNameLower fullSubsRef) fullSubsRef.codec = none
      ∧ substringTier (buildSubtitleDict [fullSubtitlesCand])
          (trackNameLower fullSubsRef) = none
      ∧ similarityLoop [fullSubtitlesCand] (trackNameLower fullSubsRef)
          = .ok (some fullSubtitlesCand, (1, 2))
      ∧ (((1, 2) : Nat × Nat).1 : ℚ) / (((1, 2) : Nat × Nat).2 : ℚ) ≤ 1 / 2)
    ∧ findMatchingSubtitle [fullSubtitlesCand] (some fullSubsRef)
      = .ok [fullSubtitlesCand].head? :=
  ⟨⟨by decide, by decide, by decide, by norm_num⟩,
   similarity_tier_threshold [fullSubtitlesCand] fullSubsRef
     (some fullSubtitlesCand) (1, 2) (by decide) (by decide) (by decide)
     (by decide) (by norm_num)⟩

/-- C3 (counterexample): the `AudioSubManager.py` builder emits one
`--audio-tracks <id>` pair PER selected audio track (two occurrences for
two tracks), never the comma-joined id list, and no default-track flag at
all. -/
theorem asm_command_repeats_audio_flag :
    (asmBuildCommand "mkvmerge" "out.mkv" "in.mkv" [audioT1, audioT2] []).count
        "--audio-tracks" = 2
    ∧ (asmBuildCommand "mkvmerge" "out.mkv" "in.mkv" [audioT1, audioT2] []).count
        "--default-track" = 0
    ∧ (asmBuildCommand "mkvmerge" "out.mkv" "in.mkv" [audioT1, audioT2] []).count
        (joinIds ([audioT1, audioT2].map Track.id)) = 0 :=
  ⟨by decide, by decide, by decide⟩

/-- C3 (amended, for the `anime_mkvtool_vostfr.py` builder): every
successfully built command is the base block — tool path, `-o` output, one
`--audio-tracks` with the comma-joined resolved audio ids, a default-track
flag for the first resolved audio — followed by the subtitle block
(`--no-subtitles` when no main subtitle was selected; one
`--subtitle-tracks` with the comma-joined resolved subtitle ids plus a
default-track flag for the resolved main subtitle when it resolved;
nothing when it did not), with the input path last. -/
theorem vostfr_command_structure (mkv out inp : String) (first : Track)
    (rest french extras : List Track) (mainSel : Option Track)
    (cmd : List String)
    (hcmd : vostfrBuildCommand mkv out inp (first :: rest) french mainSel extras
      = .ok (some cmd)) :
    ∃ subPart : List String,
      cmd = [mkv, "-o", out,
             "--audio-tracks", joinIds ((first :: rest).map Track.id),
             "--default-track", defaultTrackFlag first.id] ++ subPart ++ [inp]
      ∧ cmd.getLast? = some inp
      ∧ (mainSel = none → subPart = ["--no-subtitles"])
      ∧ (∀ m, mainSel = some m →
          (findMatchingSubtitle french (some m) = .ok none → subPart = [])
          ∧ (∀ mm keep, findMatchingSubtitle french (some m) = .ok (some mm) →
              resolveExtraSubtitles french extras mm.id = .ok keep →
              subPart = ["--subtitle-tracks", joinIds (mm.id :: keep),
                         "--default-track", defaultTrackFlag mm.id])) := by
  cases mainSel with
  | none =>
    have hc : (Except.ok (some
        (([mkv, "-o", out, "--audio-tracks", joinIds ((first :: rest).map Track.id),
           "--default-track", defaultTrackFlag first.id]
          ++ ["--no-subtitles"]) ++ [inp])) : Except Unit (Option (List String)))
        = .ok (some cmd) := hcmd
    obtain rfl := (Option.some.inj (Except.ok.inj hc)).symm
    refine ⟨["--no-subtitles"], rfl, List.getLast?_concat _, fun _ => rfl, ?_⟩
    intro m hm
    exact absurd hm (by simp)
  | some m =>
    unfold vostfrBuildCommand at hcmd
    dsimp only at hcmd
    cases hfm : findMatchingSubtitle french (some m) with
    | error e =>
      rw [hfm] at hcmd
      exact Except.noConfusion hcmd
    | ok omm =>
      rw [hfm] at hcmd
      cases omm with
      | none =>
        have hc : (Except.ok (some
            ([mkv, "-o", out, "--audio-tracks", joinIds ((first :: rest).map Track.id),
              "--default-track", defaultTrackFlag first.id] ++ [inp]))
            : Except Unit (Option (List String))) = .ok (some cmd) := hcmd
        obtain rfl := (Option.some.inj (Except.ok.inj hc)).symm
        refine ⟨[], by simp, ?_, by simp, ?_⟩
        · have : ([mkv, "-o", out, "--audio-tracks", joinIds ((first :: rest).map Track.id),
              "--default-track", defaultTrackFlag first.id] ++ [inp]).getLast? = some inp :=
            List.getLast?_concat _
          simp only [List.append_nil] at this ⊢
          exact this
        · rintro m' hm'
          obtain rfl : m' = m := (Option.some.inj hm').symm
          refine ⟨fun _ => rfl, ?_⟩
          intro mm keep hfm' _
          rw [hfm] at hfm'
          exact absurd (Except.ok.inj hfm') (by simp)
      | some mm =>
        have hcmd2 : (do
            let keep ← resolveExtraSubtitles french extras mm.id
            if mm.id :: keep ≠ [] then
              (pure (some
                (([mkv, "-o", out, "--audio-tracks",
                    joinIds ((first :: rest).map Track.id),
                    "--default-track", defaultTrackFlag first.id]
                  ++ ["--subtitle-tracks", joinIds (mm.id :: keep),
                      "--default-track", defaultTrackFlag mm.id]) ++ [inp]))
                : Except Unit (Option (List String)))
            else
              pure (some
                ([mkv, "-o", out, "--audio-tracks",
                  joinIds ((first :: rest).map Track.id),
                  "--default-track", defaultTrackFlag first.id] ++ [inp])))
            = .ok (some cmd) := hcmd
        cases hre : resolveExtraSubtitles french extras mm.id with
        | error e =>
          rw [hre] at hcmd2
          exact Except.noConfusion hcmd2
        | ok keep =>
          rw [hre] at hcmd2
          have hc : (Except.ok (some
              (([mkv, "-o", out, "--audio-tracks", joinIds ((first :: rest).map Track.id),
                 "--default-track", defaultTrackFlag first.id]
                ++ ["--subtitle-tracks", joinIds (mm.id :: keep),
                    "--default-track", defaultTrackFlag mm.id]) ++ [inp]))
              : Except Unit (Option (List String))) = .ok (some cmd) := hcmd2
          obtain rfl := (Option.some.inj (Except.ok.inj hc)).symm
          refine ⟨["--subtitle-tracks", joinIds (mm.id :: keep),
                   "--default-track", defaultTrackFlag mm.id],
                  rfl, List.getLast?_concat _, by simp, ?_⟩
          rintro m' hm'
          obtain rfl : m' = m := (Option.some.inj hm').symm
          refine ⟨?_, ?_⟩
          · intro hfm'
            rw [hfm] at hfm'
            exact absurd (Except.ok.inj hfm') (by simp)
          · intro mm' keep' hfm' hre'
            rw [hfm] at hfm'
            obtain rfl : mm' = mm := (Option.some.inj (Except.ok.inj hfm')).symm
            rw [hre] at hre'
            obtain rfl : keep' = keep := (Except.ok.inj hre').symm
            rfl

/-- C3 (witness for the amended theorem): one resolved audio track, no
main subtitle selected — the command is the base block, `--no-subtitles`,
then the input path. -/
theorem vostfr_command_structure_check :
    vostfrBuildCommand "mkvmerge" "out.mkv" "in.mkv" [audioT1] [] none []
      = .ok (some ["mkvmerge", "-o", "out.mkv", "--audio-tracks", "1",
          "--default-track", "1:yes", "--no-subtitles", "in.mkv"])
    ∧ ∃ subPart : List String,
        ["mkvmerge", "-o", "out.mkv", "--audio-tracks", "1",
         "--default-track", "1:yes", "--no-subtitles", "in.mkv"]
          = ["mkvmerge", "-o", "out.mkv",
             "--audio-tracks", joinIds ([audioT1].map Track.id),
             "--default-track", defaultTrackFlag audioT1.id] ++ subPart ++ ["in.mkv"]
        ∧ (["mkvmerge", "-o", "out.mkv", "--audio-tracks", "1",
            "--default-track", "1:yes", "--no-subtitles", "in.mkv"] : List String).getLast?
          = some "in.mkv"
        ∧ ((none : Option Track) = none → subPart = ["--no-subtitles"])
        ∧ (∀ m, (none : Option Track) = some m →
            (findMatchingSubtitle [] (some m) = .ok none → subPart = [])
            ∧ (∀ mm keep, findMatchingSubtitle [] (some m) = .ok (some mm) →
                resolveExtraSubtitles [] [] mm.id = .ok keep →
                subPart = ["--subtitle-tracks", joinIds (mm.id :: keep),
                           "--default-track", defaultTrackFlag mm.id])) :=
  ⟨by decide,
   vostfr_command_structure "mkvmerge" "out.mkv" "in.mkv" audioT1 [] [] []
     none _ (by decide)⟩
